import Mathlib

/-!
Shallow embedding of the hope argument-parsing library (src/hope.h, version 0.1.4)
and verification of the frozen claims about its matching/resolution engine.

Modelling conventions:
* C strings (`const char *`) that may be NULL are `Option String`; non-null strings
  are `String`.
* The tagged raw-memory union `hope_result_t.value` is modelled by the inductive
  `hope_value`; the zero-initialized union (`{0}`: NULL pointer / false) is
  `hope_value.nullv`, and a value array is the constructor of the type that was
  written.  The code only reads the union member it wrote (the `type` field is
  checked first everywhere), so no cross-type pun is observable.
* `size_t` counters are `Nat`, `int` quantities (`nargs`, return codes used as
  `int`) are `Int`/`Nat` as appropriate.  `long` overflow saturation of `strtol`
  is not modelled (no claim involves values near `LONG_MAX`).
* `double` values are modelled as `Rat`; `hope_strtod` models the decimal forms
  of `strtod` (sign, digits, optional fraction).  No claim exercises a double
  conversion.
* Error printing to `stderr` is side-effect-free here; the getter model records
  the diagnostic code that would be printed in the `err` field of its output.
* The out-parameter writes of the getters are modelled explicitly: `wrote = none`
  means the caller's destination was never written, `wrote = some v` means the
  value `v` was stored through the destination pointer.
-/

set_option linter.unusedVariables false

namespace Hope

/-- `enum hope_argtype_e` (hope.h:42). -/
inductive hope_argtype where
  | SWITCH
  | INTEGER
  | DOUBLE
  | STRING
deriving DecidableEq, Repr

/-- `HOPE_ARGC_NONE` (hope.h:53): expect no values. -/
def HOPE_ARGC_NONE : Int := 0
/-- `HOPE_ARGC_MORE` (hope.h:55): expect one or more values. -/
def HOPE_ARGC_MORE : Int := -1
/-- `HOPE_ARGC_OPTMORE` (hope.h:57): expect zero or more values. -/
def HOPE_ARGC_OPTMORE : Int := -2
/-- `HOPE_ARGC_OPT` (hope.h:59): expect zero or one value. -/
def HOPE_ARGC_OPT : Int := -3

def HOPE_SUCCESS_CODE : Nat := 0x00
def HOPE_ERR_ALLOC_FAILED_CODE : Nat := 0x11
def HOPE_PARAMADD_ERR_HASCOLLECTOR_CODE : Nat := 0x21
def HOPE_PARAMADD_ERR_DUPLICATE_CODE : Nat := 0x22
def HOPE_PARSE_ERR_PARAM_MISCOUNT_CODE : Nat := 0x31
def HOPE_PARSE_ERR_PARAM_UNPARSABLE_CODE : Nat := 0x32
def HOPE_PARSE_ERR_PARAM_ARG_MISCOUNT_CODE : Nat := 0x33
def HOPE_GET_ERR_NOEXIST_CODE : Nat := 0x41
def HOPE_GET_ERR_TYPE_MISMATCH_CODE : Nat := 0x42
def HOPE_SETADD_ERR_DUPLICATE_CODE : Nat := 0x51
/-- Fuel exhaustion marker for the scan model; never returned for the fuel bound
`hope_parse_set` supplies (the scan makes at most `|args| + 1` outer iterations,
each strictly consuming tokens). -/
def HOPE_SCAN_OUT_OF_FUEL_CODE : Nat := 0xEE
/-- `assert(0 && "Unreachable")` in `hope_parse_into_result` (hope.h:774): a
switch-typed parameter offered a value token aborts the process; modelled as a
distinguished code. -/
def HOPE_ASSERT_ABORT_CODE : Nat := 0xFE

/-- `hope_param_t` (hope.h:72). `name = none` marks the collector. -/
structure hope_param where
  name : Option String
  help : Option String
  type : hope_argtype
  nargs : Int
deriving DecidableEq, Repr

/-- The value union of `hope_result_t` (hope.h:83).  `nullv` is the
zero-initialized union (NULL pointer / `false`). -/
inductive hope_value where
  | nullv
  | integers (l : List Int)
  | doubles (l : List Rat)
  | strings (l : List String)
  | switchOn
deriving DecidableEq, Repr

/-- `hope_result_t` (hope.h:82). -/
structure hope_result where
  value : hope_value
  name : Option String
  count : Nat
  type : hope_argtype
deriving DecidableEq, Repr

/-- `hope_set_t` (hope.h:97).  `nparams` is `params.length`; `nresults` is kept
as a separate field exactly as in the C struct because the code updates the
`results` pointer and the counter independently (see `hope_parse_set`'s `defer`). -/
structure hope_set where
  name : String
  params : List hope_param
  collector : Option hope_param
  results : Option (List hope_result)
  nresults : Nat
deriving DecidableEq, Repr

/-- `hope_t` (hope.h:116). -/
structure hope_t where
  prog_name : String
  prog_desc : Option String
  sets : List hope_set
  results : Option (List hope_result)
  nresults : Nat
  used_set_name : Option String
deriving DecidableEq, Repr

/-- `hope_init_param` (hope.h:513). -/
def hope_init_param (name : Option String) (help : Option String)
    (type : hope_argtype) (nargs : Int) : hope_param :=
  { name := name, help := help, type := type, nargs := nargs }

/-- `hope_init_set` (hope.h:527). -/
def hope_init_set (set_name : String) : hope_set :=
  { name := set_name, params := [], collector := none, results := none, nresults := 0 }

/-- `hope_init` (hope.h:572). -/
def hope_init (prog_name : String) (prog_desc : Option String) : hope_t :=
  { prog_name := prog_name, prog_desc := prog_desc, sets := [], results := none,
    nresults := 0, used_set_name := none }

/-- The name comparison shared by `hope_search_param` and `hope_search_result`
(hope.h:686, hope.h:700): a NULL query matches exactly the NULL-named entry,
otherwise `strcmp`.  The C `strcmp(entry_name, q)` with a NULL `entry_name` is
undefined behaviour; it is modelled as a non-match (no theorem below exercises
that path: a NULL-named result can only be the collector entry, which is pushed
last, after every named entry the theorems look up). -/
def hope_name_matches (rname nm : Option String) : Bool :=
  match nm with
  | none => rname.isNone
  | some n =>
    match rname with
    | some rn => rn == n
    | none => false

/-- `hope_search_param` (hope.h:686): first declared parameter whose name
matches. -/
def hope_search_param (set : hope_set) (nm : Option String) : Option hope_param :=
  set.params.find? (fun p => hope_name_matches p.name nm)

/-- `hope_search_result` (hope.h:700): first result whose name matches.  The C
function walks `nresults` array slots; in every state the model builds, the
array pointed to by `results` holds exactly `nresults` entries, so the list is
walked directly. -/
def hope_search_result (results : List hope_result) (nm : Option String) :
    Option hope_result :=
  results.find? (fun r => hope_name_matches r.name nm)

/-- `hope_add_param` (hope.h:539). -/
def hope_add_param (set : hope_set) (p : hope_param) : hope_set × Nat :=
  match p.name with
  | none =>
    match set.collector with
    | some _ => (set, HOPE_PARAMADD_ERR_HASCOLLECTOR_CODE)
    | none => ({ set with collector := some p }, HOPE_SUCCESS_CODE)
  | some _ =>
    if set.params.any (fun q => hope_name_matches q.name p.name) then
      (set, HOPE_PARAMADD_ERR_DUPLICATE_CODE)
    else
      ({ set with params := set.params ++ [p] }, HOPE_SUCCESS_CODE)

/-- `hope_add_set` (hope.h:666). -/
def hope_add_set (h : hope_t) (s : hope_set) : hope_t × Nat :=
  if h.sets.any (fun t => t.name == s.name) then
    (h, HOPE_SETADD_ERR_DUPLICATE_CODE)
  else
    ({ h with sets := h.sets ++ [s] }, HOPE_SUCCESS_CODE)

/-- The `isspace` set consulted by `strtol`/`strtod`. -/
def hope_is_space (c : Char) : Bool :=
  c == ' ' || c == '\t' || c == '\n' || c == '\x0b' || c == '\x0c' || c == '\r'

/-- Value of a list of decimal digit characters. -/
def hope_digit_val (cs : List Char) : Nat :=
  cs.foldl (fun a c => a * 10 + (c.toNat - 48)) 0

/-- `strtol(str, &endptr, 10)` as used in `hope_parse_integer_into_result`
(hope.h:717): skip whitespace, optional sign, at least one digit (else
`endptr == str`, i.e. `none`); trailing non-digits ignored.  `LONG_MAX`
saturation is not modelled (no claim involves such magnitudes). -/
def hope_strtol (s : String) : Option Int :=
  let cs := s.data.dropWhile hope_is_space
  let sc : Int × List Char :=
    match cs with
    | '-' :: r => (-1, r)
    | '+' :: r => (1, r)
    | _ => (1, cs)
  let ds := sc.2.takeWhile Char.isDigit
  if ds.isEmpty then none
  else some (sc.1 * (hope_digit_val ds : Int))

/-- `strtod(str, &endptr)` as used in `hope_parse_double_into_result`
(hope.h:735), for the decimal forms (sign, digits, optional fraction); the
hex/exponent/inf/nan forms are never reached by any claim and rounding to
binary floating point is irrelevant to them, so the exact decimal value is
kept as a `Rat`. -/
def hope_strtod (s : String) : Option Rat :=
  let cs := s.data.dropWhile hope_is_space
  let sc : Rat × List Char :=
    match cs with
    | '-' :: r => (-1, r)
    | '+' :: r => (1, r)
    | _ => (1, cs)
  let ip := sc.2.takeWhile Char.isDigit
  let rest := sc.2.dropWhile Char.isDigit
  let fp : List Char :=
    match rest with
    | '.' :: r => r.takeWhile Char.isDigit
    | _ => []
  if ip.isEmpty && fp.isEmpty then none
  else some (sc.1 * ((hope_digit_val ip : Rat) + (hope_digit_val fp : Rat) / ((10 : Rat) ^ fp.length)))

/-- `realloc`-and-append on the integer member (hope.h:722).  The wildcard case
is the zero-initialized union (NULL pointer), for which `realloc` allocates a
fresh one-slot array; a result only ever receives values of its single
parameter's type, so no other constructor is reachable here. -/
def hope_value_push_int (v : hope_value) (x : Int) : hope_value :=
  match v with
  | .integers l => .integers (l ++ [x])
  | _ => .integers [x]

/-- `realloc`-and-append on the double member (hope.h:740). -/
def hope_value_push_double (v : hope_value) (x : Rat) : hope_value :=
  match v with
  | .doubles l => .doubles (l ++ [x])
  | _ => .doubles [x]

/-- `realloc`-and-append on the string member (hope.h:752). -/
def hope_value_push_string (v : hope_value) (x : String) : hope_value :=
  match v with
  | .strings l => .strings (l ++ [x])
  | _ => .strings [x]

/-- Reading `value.integers` (NULL ↦ `none`). -/
def hope_value_integers : hope_value → Option (List Int)
  | .integers l => some l
  | _ => none

/-- Reading `value.doubles` (NULL ↦ `none`). -/
def hope_value_doubles : hope_value → Option (List Rat)
  | .doubles l => some l
  | _ => none

/-- Reading `value.strings` (NULL ↦ `none`). -/
def hope_value_strings : hope_value → Option (List String)
  | .strings l => some l
  | _ => none

/-- Reading `value._switch` (zero-initialized union reads as `false`). -/
def hope_value_switch : hope_value → Bool
  | .switchOn => true
  | _ => false

/-- `hope_parse_integer_into_result` (hope.h:715). -/
def hope_parse_integer_into_result (s : String) (r : hope_result) :
    Except Nat hope_result :=
  match hope_strtol s with
  | none => Except.error HOPE_PARSE_ERR_PARAM_UNPARSABLE_CODE
  | some v => Except.ok { r with value := hope_value_push_int r.value v, count := r.count + 1 }

/-- `hope_parse_double_into_result` (hope.h:733). -/
def hope_parse_double_into_result (s : String) (r : hope_result) :
    Except Nat hope_result :=
  match hope_strtod s with
  | none => Except.error HOPE_PARSE_ERR_PARAM_UNPARSABLE_CODE
  | some v => Except.ok { r with value := hope_value_push_double r.value v, count := r.count + 1 }

/-- `hope_parse_string_into_result` (hope.h:751): the token is stored as-is. -/
def hope_parse_string_into_result (s : String) (r : hope_result) :
    Except Nat hope_result :=
  Except.ok { r with value := hope_value_push_string r.value s, count := r.count + 1 }

/-- `hope_parse_into_result` (hope.h:762). -/
def hope_parse_into_result (s : String) (p : hope_param) (r : hope_result) :
    Except Nat hope_result :=
  match p.type with
  | .INTEGER => hope_parse_integer_into_result s r
  | .DOUBLE => hope_parse_double_into_result s r
  | .STRING => hope_parse_string_into_result s r
  | .SWITCH => Except.error HOPE_ASSERT_ABORT_CODE

/-- The `(results, nresults)` pair of a set during a parse. -/
structure hope_store where
  results : Option (List hope_result)
  nresults : Nat
deriving DecidableEq, Repr

/-- The result array viewed as a list (NULL pointer ↦ empty). -/
def hope_rl (st : hope_store) : List hope_result := st.results.getD []

/-- `hope_push_parsed_result` (hope.h:778): `realloc` to `nresults + 1` slots and
append.  In every state reached from a clean set (the precondition of all
theorems below), a NULL `results` pointer goes with `nresults = 0`, so the
realloc'd array content is exactly the previous entries plus the new one. -/
def hope_push_parsed_result (st : hope_store) (r : hope_result) : hope_store :=
  { results := some (hope_rl st ++ [r]), nresults := st.nresults + 1 }

/-- `hope_result_t result = {0}` / `collector_result = {0}` (hope.h:792,795):
all-zero struct — NULL/false union, NULL name, count 0, type 0 = switch. -/
def hope_zero_result : hope_result :=
  { value := .nullv, name := none, count := 0, type := .SWITCH }

/-- The greedy value-consumption loop of `hope_parse_set` (hope.h:828-840):
consume following tokens as values for `p` until the next token is a declared
parameter name or the `--` separator, a conversion fails (aborting the set
parse), or the arity limit is reached (`HOPE_ARGC_OPT` stops after one value,
`Exact(n)` once `count` reaches `nargs`).  Returns the accumulated result (or
the error code) and the unconsumed tokens. -/
def hope_greedy (set : hope_set) (p : hope_param) :
    hope_result → List String → Except Nat hope_result × List String
  | r, [] => (Except.ok r, [])
  | r, t :: ts =>
    if (hope_search_param set (some t)).isSome || t == "--" then
      (Except.ok r, t :: ts)
    else
      match hope_parse_into_result t p r with
      | Except.error c => (Except.error c, t :: ts)
      | Except.ok r2 =>
        if p.nargs = HOPE_ARGC_OPT ∨ p.nargs = (r2.count : Int) then
          (Except.ok r2, ts)
        else
          hope_greedy set p r2 ts

/-- The main token scan of `hope_parse_set` (hope.h:816-863), one outer loop
iteration per recursive call: skip `--`; a token matching a declared parameter
records a switch presence, consumes nothing for arity `HOPE_ARGC_NONE`
(`continue`: note that no result is pushed in that case), or greedily consumes
values; an unmatched token goes to the collector unless it is saturated
(`break`: the remaining tokens are silently dropped) or absent (fail with
`HOPE_PARSE_ERR_PARAM_MISCOUNT_CODE`).  The collector accumulates in `cres` and
is pushed only by `hope_finish_collector`.  `fuel` bounds the number of outer
iterations; each iteration recurses on a strict suffix of the tokens, so
`|args| + 1` is always sufficient. -/
def hope_scan (set : hope_set) :
    Nat → hope_store → hope_result → List String → hope_store × hope_result × Nat
  | 0, st, cres, _ => (st, cres, HOPE_SCAN_OUT_OF_FUEL_CODE)
  | _ + 1, st, cres, [] => (st, cres, HOPE_SUCCESS_CODE)
  | fuel + 1, st, cres, t :: ts =>
    if t == "--" then
      hope_scan set fuel st cres ts
    else
      match hope_search_param set (some t) with
      | some p =>
        if p.type = .SWITCH then
          hope_scan set fuel
            (hope_push_parsed_result st
              { value := .switchOn, name := p.name, count := 0, type := p.type })
            cres ts
        else if p.nargs = HOPE_ARGC_NONE then
          hope_scan set fuel st cres ts
        else
          match hope_greedy set p
              { value := .nullv, name := p.name, count := 0, type := p.type } ts with
          | (Except.error c, _) => (st, cres, c)
          | (Except.ok r, ts2) =>
            hope_scan set fuel (hope_push_parsed_result st r) cres ts2
      | none =>
        match set.collector with
        | some c =>
          if (c.nargs = HOPE_ARGC_OPT ∧ cres.count ≠ 0) ∨ c.nargs = (cres.count : Int) then
            (st, cres, HOPE_SUCCESS_CODE)
          else
            match hope_parse_into_result t c cres with
            | Except.error code => (st, cres, code)
            | Except.ok cres2 => hope_scan set fuel st cres2 ts
        | none => (st, cres, HOPE_PARSE_ERR_PARAM_MISCOUNT_CODE)

/-- The post-scan pass of `hope_parse_set` (hope.h:864-886): for each declared
parameter in declaration order, a required arity (`HOPE_ARGC_MORE` or
`Exact(n > 0)`) with no recorded result fails with
`HOPE_PARSE_ERR_PARAM_ARG_MISCOUNT_CODE`; an optional arity (`HOPE_ARGC_OPTMORE`,
`HOPE_ARGC_OPT`, `HOPE_ARGC_NONE`) with no recorded result gets an empty result
synthesized. -/
def hope_fill_missing : hope_store → List hope_param → hope_store × Nat
  | st, [] => (st, HOPE_SUCCESS_CODE)
  | st, p :: ps =>
    let pr := hope_search_result (hope_rl st) p.name
    if p.nargs = HOPE_ARGC_MORE ∨ p.nargs > HOPE_ARGC_NONE then
      if pr = none then (st, HOPE_PARSE_ERR_PARAM_ARG_MISCOUNT_CODE)
      else hope_fill_missing st ps
    else if (p.nargs = HOPE_ARGC_OPTMORE ∨ p.nargs = HOPE_ARGC_OPT ∨ p.nargs = HOPE_ARGC_NONE)
        ∧ pr = none then
      hope_fill_missing
        (hope_push_parsed_result st
          { value := .nullv, name := p.name, count := 0, type := p.type }) ps
    else hope_fill_missing st ps

/-- The collector finalization of `hope_parse_set` (hope.h:887-896): stamp the
collector's type on the accumulated result, validate its count
(`HOPE_ARGC_MORE` needs ≥ 1, `Exact(n)` needs exactly n), push it. -/
def hope_finish_collector (set : hope_set) (st : hope_store) (cres : hope_result) :
    hope_store × Nat :=
  match set.collector with
  | none => (st, HOPE_SUCCESS_CODE)
  | some c =>
    if (c.nargs = HOPE_ARGC_MORE ∧ cres.count = 0) ∨
        (c.nargs > HOPE_ARGC_NONE ∧ c.nargs ≠ (cres.count : Int)) then
      (st, HOPE_PARSE_ERR_PARAM_ARG_MISCOUNT_CODE)
    else (hope_push_parsed_result st { cres with type := c.type }, HOPE_SUCCESS_CODE)

/-- The up-front empty-token-list check of `hope_parse_set` (hope.h:798-814):
with named parameters present, any `nargs >= HOPE_ARGC_MORE` (i.e. `-1`, `0`,
or a positive exact count — the `&& cur_param` conjunct of the C condition is
always true) fails; with no named parameters, a collector with
`nargs >= HOPE_ARGC_MORE && nargs != 0` fails.  Note the collector is *not*
checked when named parameters exist. -/
def hope_empty_check (set : hope_set) : Bool :=
  if set.params.length > 0 then
    set.params.any (fun p => decide (HOPE_ARGC_MORE ≤ p.nargs))
  else
    match set.collector with
    | some c => decide (HOPE_ARGC_MORE ≤ c.nargs ∧ c.nargs ≠ 0)
    | none => false

/-- The `defer` label of `hope_parse_set` (hope.h:898-907): free the result
array and NULL the pointer — but `nresults` is left at its current value. -/
def hope_defer (set : hope_set) (st : hope_store) (code : Nat) : hope_set × Nat :=
  ({ set with results := none, nresults := st.nresults }, code)

/-- Phase 1 of `hope_parse_set`: the token scan, starting from the set's current
result state (the C code does *not* reset `results`/`nresults` on entry) and the
zero-initialized `collector_result`. -/
def hope_scan_phase (set : hope_set) (args : List String) :
    hope_store × hope_result × Nat :=
  hope_scan set (args.length + 1) { results := set.results, nresults := set.nresults }
    hope_zero_result args

/-- Phase 2 of `hope_parse_set`: the missing-parameter pass over the scan's
output state. -/
def hope_fill_phase (set : hope_set) (args : List String) : hope_store × Nat :=
  hope_fill_missing (hope_scan_phase set args).1 set.params

/-- Phase 3 of `hope_parse_set`: collector finalization. -/
def hope_collector_phase (set : hope_set) (args : List String) : hope_store × Nat :=
  hope_finish_collector set (hope_fill_phase set args).1 (hope_scan_phase set args).2.1

/-- `hope_parse_set` (hope.h:790): up-front empty-list check, token scan,
missing-parameter pass, collector finalization; any failure routes through
`defer`. -/
def hope_parse_set (set : hope_set) (args : List String) : hope_set × Nat :=
  if args = [] ∧ hope_empty_check set then
    hope_defer set { results := set.results, nresults := set.nresults }
      HOPE_PARSE_ERR_PARAM_MISCOUNT_CODE
  else if (hope_scan_phase set args).2.2 ≠ HOPE_SUCCESS_CODE then
    hope_defer set (hope_scan_phase set args).1 (hope_scan_phase set args).2.2
  else if (hope_fill_phase set args).2 ≠ HOPE_SUCCESS_CODE then
    hope_defer set (hope_fill_phase set args).1 (hope_fill_phase set args).2
  else if (hope_collector_phase set args).2 ≠ HOPE_SUCCESS_CODE then
    hope_defer set (hope_collector_phase set args).1 (hope_collector_phase set args).2
  else
    ({ set with
        results := (hope_collector_phase set args).1.results
        nresults := (hope_collector_phase set args).1.nresults }, HOPE_SUCCESS_CODE)

/-- The set-trial loop of `hope_parse` (hope.h:911-920): parse each set in
declaration order against the full token list; stop at the first success and
return the updated set list plus the committed set, if any. -/
def hope_parse_sets (args : List String) : List hope_set → List hope_set × Option hope_set
  | [] => ([], none)
  | s :: rest =>
    if (hope_parse_set s args).2 = HOPE_SUCCESS_CODE then
      ((hope_parse_set s args).1 :: rest, some (hope_parse_set s args).1)
    else
      ((hope_parse_set s args).1 :: (hope_parse_sets args rest).1,
       (hope_parse_sets args rest).2)

/-- `hope_parse` (hope.h:910): commit the first set whose parse succeeds (its
results, result count and name become the parser's state); if none succeeds,
return `HOPE_PARSE_ERR_PARAM_UNPARSABLE_CODE` with the parser's committed state
unchanged. -/
def hope_parse (h : hope_t) (args : List String) : hope_t × Nat :=
  match hope_parse_sets args h.sets with
  | (sets2, some s) =>
    ({ h with
        sets := sets2
        results := s.results
        nresults := s.nresults
        used_set_name := some s.name }, HOPE_SUCCESS_CODE)
  | (sets2, none) => ({ h with sets := sets2 }, HOPE_PARSE_ERR_PARAM_UNPARSABLE_CODE)

/-- `hope_parse_argv` (hope.h:947): drop the program path. -/
def hope_parse_argv (h : hope_t) (argv : List String) : hope_t × Nat :=
  hope_parse h (argv.drop 1)

/-- Output of a fallible getter: the `int` return value, the value written
through the caller's destination pointer (`none` if the destination was never
written), and the diagnostic code printed to stderr, if any. -/
structure hope_get_out (α : Type) where
  ret : Int
  wrote : Option α
  err : Option Nat
deriving DecidableEq, Repr

/-- `hope_get_switch` (hope.h:925).  On both failure paths the C code assigns
NULL to the *local* parameter `dest` (`dest = NULL;`), not through it, so the
caller's destination is never written (`wrote = none`). -/
def hope_get_switch (h : hope_t) (nm : Option String) : hope_get_out Bool :=
  match hope_search_result (h.results.getD []) nm with
  | none => { ret := -1, wrote := none, err := some HOPE_GET_ERR_NOEXIST_CODE }
  | some r =>
    if r.type ≠ .SWITCH then
      { ret := -1, wrote := none, err := some HOPE_GET_ERR_TYPE_MISMATCH_CODE }
    else
      { ret := 1, wrote := some (hope_value_switch r.value), err := none }

/-- `hope_get_integer` (hope.h:951); same local-`dest` assignment on failure. -/
def hope_get_integer (h : hope_t) (nm : Option String) :
    hope_get_out (Option (List Int)) :=
  match hope_search_result (h.results.getD []) nm with
  | none => { ret := -1, wrote := none, err := some HOPE_GET_ERR_NOEXIST_CODE }
  | some r =>
    if r.type ≠ .INTEGER then
      { ret := -1, wrote := none, err := some HOPE_GET_ERR_TYPE_MISMATCH_CODE }
    else
      { ret := (r.count : Int), wrote := some (hope_value_integers r.value), err := none }

/-- `hope_get_double` (hope.h:973). -/
def hope_get_double (h : hope_t) (nm : Option String) :
    hope_get_out (Option (List Rat)) :=
  match hope_search_result (h.results.getD []) nm with
  | none => { ret := -1, wrote := none, err := some HOPE_GET_ERR_NOEXIST_CODE }
  | some r =>
    if r.type ≠ .DOUBLE then
      { ret := -1, wrote := none, err := some HOPE_GET_ERR_TYPE_MISMATCH_CODE }
    else
      { ret := (r.count : Int), wrote := some (hope_value_doubles r.value), err := none }

/-- `hope_get_string` (hope.h:995). -/
def hope_get_string (h : hope_t) (nm : Option String) :
    hope_get_out (Option (List String)) :=
  match hope_search_result (h.results.getD []) nm with
  | none => { ret := -1, wrote := none, err := some HOPE_GET_ERR_NOEXIST_CODE }
  | some r =>
    if r.type ≠ .STRING then
      { ret := -1, wrote := none, err := some HOPE_GET_ERR_TYPE_MISMATCH_CODE }
    else
      { ret := (r.count : Int), wrote := some (hope_value_strings r.value), err := none }

/-- `hope_get_single_switch` (hope.h:1018).  `none` models a failed `assert`
(process abort): parameter not found, wrong type, or more than one value. -/
def hope_get_single_switch (h : hope_t) (nm : Option String) : Option Bool :=
  match hope_search_result (h.results.getD []) nm with
  | none => none
  | some r =>
    if r.type ≠ .SWITCH then none
    else if 2 ≤ r.count then none
    else some (hope_value_switch r.value)

/-- `hope_get_single_integer` (hope.h:1027): `count ? value.integers[0] : 0`.
The array read `[0]` is modelled by `headD`; whenever `count ≠ 0` the stored
array is nonempty. -/
def hope_get_single_integer (h : hope_t) (nm : Option String) : Option Int :=
  match hope_search_result (h.results.getD []) nm with
  | none => none
  | some r =>
    if r.type ≠ .INTEGER then none
    else if 2 ≤ r.count then none
    else some (if r.count ≠ 0 then ((hope_value_integers r.value).getD []).headD 0 else 0)

/-- `hope_get_single_double` (hope.h:1036). -/
def hope_get_single_double (h : hope_t) (nm : Option String) : Option Rat :=
  match hope_search_result (h.results.getD []) nm with
  | none => none
  | some r =>
    if r.type ≠ .DOUBLE then none
    else if 2 ≤ r.count then none
    else some (if r.count ≠ 0 then ((hope_value_doubles r.value).getD []).headD 0 else 0)

/-- `hope_get_single_string` (hope.h:1045): `count ? value.strings[0] : NULL` —
the absent case returns a NULL pointer (`none`), not an empty string. -/
def hope_get_single_string (h : hope_t) (nm : Option String) : Option (Option String) :=
  match hope_search_result (h.results.getD []) nm with
  | none => none
  | some r =>
    if r.type ≠ .STRING then none
    else if 2 ≤ r.count then none
    else some (if r.count ≠ 0 then some (((hope_value_strings r.value).getD []).headD "") else none)

/-! ### Concrete declaration scenarios used by the claim theorems

Each scenario is a set as it stands right after declaration (clean result
state), built exactly as `hope_init_set` + `hope_add_param` would leave it. -/

/-- One optional switch `-a`, no collector. -/
def SA : hope_set :=
  { name := "main", params := [⟨some "-a", none, .SWITCH, HOPE_ARGC_OPT⟩],
    collector := none, results := none, nresults := 0 }

/-- One optional switch `-a`, no collector (fresh copy for the duplicate-token
scenario). -/
def S2 : hope_set :=
  { name := "s2", params := [⟨some "-a", none, .SWITCH, HOPE_ARGC_OPT⟩],
    collector := none, results := none, nresults := 0 }

/-- `-s`: String, one-or-more; `-h`: optional switch (the separator scenario of
the spec). -/
def S3 : hope_set :=
  { name := "s3",
    params := [⟨some "-s", none, .STRING, HOPE_ARGC_MORE⟩,
               ⟨some "-h", none, .SWITCH, HOPE_ARGC_OPT⟩],
    collector := none, results := none, nresults := 0 }

/-- `-i`: Integer, one-or-more (requires at least one value). -/
def SB : hope_set :=
  { name := "sb", params := [⟨some "-i", none, .INTEGER, HOPE_ARGC_MORE⟩],
    collector := none, results := none, nresults := 0 }

/-- `-n`: Integer with arity None (requires zero values). -/
def SBnone : hope_set :=
  { name := "sn", params := [⟨some "-n", none, .INTEGER, HOPE_ARGC_NONE⟩],
    collector := none, results := none, nresults := 0 }

/-- The spec's `Help` set: one optional switch `-h`. -/
def SHelp : hope_set :=
  { name := "Help", params := [⟨some "-h", none, .SWITCH, HOPE_ARGC_OPT⟩],
    collector := none, results := none, nresults := 0 }

/-- The spec's `Default` set: optional switch `-v`, optional integer `-i`. -/
def SDefault : hope_set :=
  { name := "Default",
    params := [⟨some "-v", none, .SWITCH, HOPE_ARGC_OPT⟩,
               ⟨some "-i", none, .INTEGER, HOPE_ARGC_OPT⟩],
    collector := none, results := none, nresults := 0 }

/-- A parser declaring `Help` before `Default`. -/
def H5 : hope_t :=
  { prog_name := "p", prog_desc := none, sets := [SHelp, SDefault],
    results := none, nresults := 0, used_set_name := none }

/-- One optional integer `-i`. -/
def S6 : hope_set :=
  { name := "s6", params := [⟨some "-i", none, .INTEGER, HOPE_ARGC_OPT⟩],
    collector := none, results := none, nresults := 0 }

/-- A parser committed on `S6` with tokens `["-i", "5"]`. -/
def H6 : hope_t :=
  (hope_parse
    { prog_name := "p", prog_desc := none, sets := [S6], results := none,
      nresults := 0, used_set_name := none } ["-i", "5"]).1

/-- Four optional parameters, one per type, no collector. -/
def S7 : hope_set :=
  { name := "s7",
    params := [⟨some "-b", none, .SWITCH, HOPE_ARGC_OPT⟩,
               ⟨some "-i", none, .INTEGER, HOPE_ARGC_OPT⟩,
               ⟨some "-d", none, .DOUBLE, HOPE_ARGC_OPT⟩,
               ⟨some "-s", none, .STRING, HOPE_ARGC_OPT⟩],
    collector := none, results := none, nresults := 0 }

/-- A parser committed on `S7` with an empty token list (all four parameters
optional and absent). -/
def H7 : hope_t :=
  (hope_parse
    { prog_name := "p", prog_desc := none, sets := [S7], results := none,
      nresults := 0, used_set_name := none } []).1

/-- `-i`: Integer, exactly three values. -/
def S8 : hope_set :=
  { name := "s8", params := [⟨some "-i", none, .INTEGER, 3⟩],
    collector := none, results := none, nresults := 0 }

/-- `-i`: Integer, zero-or-one value. -/
def S9 : hope_set :=
  { name := "s9", params := [⟨some "-i", none, .INTEGER, HOPE_ARGC_OPT⟩],
    collector := none, results := none, nresults := 0 }

/-- A parser committed on `S9` with tokens `["-i", "1", "-i", "2"]`. -/
def H9 : hope_t :=
  (hope_parse
    { prog_name := "p", prog_desc := none, sets := [S9], results := none,
      nresults := 0, used_set_name := none } ["-i", "1", "-i", "2"]).1

/-- `-n`: Integer with arity None. -/
def S9n : hope_set :=
  { name := "s9n", params := [⟨some "-n", none, .INTEGER, HOPE_ARGC_NONE⟩],
    collector := none, results := none, nresults := 0 }

/-- Optional switch `-a` plus a zero-or-more String collector. -/
def SW : hope_set :=
  { name := "sw", params := [⟨some "-a", none, .SWITCH, HOPE_ARGC_OPT⟩],
    collector := some ⟨none, none, .STRING, HOPE_ARGC_OPTMORE⟩,
    results := none, nresults := 0 }

/-! ### Helper lemmas about the embedding -/

theorem hope_rl_push (st : hope_store) (r : hope_result) :
    hope_rl (hope_push_parsed_result st r) = hope_rl st ++ [r] := rfl

theorem hope_mem_rl_push {st : hope_store} {r x : hope_result} :
    x ∈ hope_rl (hope_push_parsed_result st r) ↔ x ∈ hope_rl st ∨ x = r := by
  simp [hope_rl_push]

/-- A parameter found by `hope_search_param` for a (non-NULL) token is a declared
parameter whose name is exactly that token. -/
theorem hope_search_param_name {set : hope_set} {t : String} {p : hope_param}
    (h : hope_search_param set (some t) = some p) :
    p ∈ set.params ∧ p.name = some t := by
  refine ⟨List.mem_of_find?_eq_some h, ?_⟩
  have hp := List.find?_some h
  cases hn : p.name with
  | none => rw [hn] at hp; simp [hope_name_matches] at hp
  | some rn =>
    rw [hn] at hp
    simp only [hope_name_matches, beq_iff_eq] at hp
    rw [hp]

/-- Value conversion never changes a result's name or type. -/
theorem hope_conv_preserves {s : String} {p : hope_param} {r r2 : hope_result}
    (h : hope_parse_into_result s p r = Except.ok r2) :
    r2.name = r.name ∧ r2.type = r.type := by
  unfold hope_parse_into_result at h
  split at h
  · unfold hope_parse_integer_into_result at h
    split at h
    · exact absurd h (by simp)
    · obtain rfl := (Except.ok.injEq _ _).mp h.symm
      exact ⟨rfl, rfl⟩
  · unfold hope_parse_double_into_result at h
    split at h
    · exact absurd h (by simp)
    · obtain rfl := (Except.ok.injEq _ _).mp h.symm
      exact ⟨rfl, rfl⟩
  · unfold hope_parse_string_into_result at h
    obtain rfl := (Except.ok.injEq _ _).mp h.symm
    exact ⟨rfl, rfl⟩
  · exact absurd h (by simp)

/-- The greedy loop preserves the result's name and type and returns a
sub-collection of its input tokens as the unconsumed remainder. -/
theorem hope_greedy_ok {set : hope_set} {p : hope_param} :
    ∀ {ts : List String} {r r2 : hope_result} {ts2 : List String},
      hope_greedy set p r ts = (Except.ok r2, ts2) →
      r2.name = r.name ∧ r2.type = r.type ∧ ∀ x ∈ ts2, x ∈ ts := by
  intro ts
  induction ts with
  | nil =>
    intro r r2 ts2 h
    simp only [hope_greedy, Prod.mk.injEq, Except.ok.injEq] at h
    obtain ⟨rfl, rfl⟩ := h
    exact ⟨rfl, rfl, by simp⟩
  | cons t ts ih =>
    intro r r2 ts2 h
    rw [hope_greedy] at h
    split at h
    · simp only [Prod.mk.injEq, Except.ok.injEq] at h
      obtain ⟨rfl, rfl⟩ := h
      exact ⟨rfl, rfl, fun x hx => hx⟩
    · split at h
      next => exact absurd h (by simp)
      next r3 hconv =>
        obtain ⟨hn3, ht3⟩ := hope_conv_preserves hconv
        split at h
        · simp only [Prod.mk.injEq, Except.ok.injEq] at h
          obtain ⟨rfl, rfl⟩ := h
          exact ⟨hn3, ht3, fun x hx => List.mem_cons_of_mem _ hx⟩
        · obtain ⟨hn2, ht2, hsub⟩ := ih h
          exact ⟨hn2.trans hn3, ht2.trans ht3,
            fun x hx => List.mem_cons_of_mem _ (hsub x hx)⟩

/-- Provenance of scanned results: every entry present after the scan was either
already there or is named after some scanned token (that matched a declared
parameter).  In particular, starting from an empty store, every entry's name is
a `some`-name drawn from the token list. -/
theorem hope_scan_results (set : hope_set) :
    ∀ (fuel : Nat) (toks : List String) (st : hope_store) (cres : hope_result),
      ∀ r ∈ hope_rl (hope_scan set fuel st cres toks).1,
        r ∈ hope_rl st ∨ ∃ t ∈ toks, r.name = some t := by
  intro fuel
  induction fuel with
  | zero =>
    intro toks st cres r hr
    rw [hope_scan] at hr
    exact Or.inl hr
  | succ n ih =>
    intro toks st cres r hr
    cases toks with
    | nil =>
      rw [hope_scan] at hr
      exact Or.inl hr
    | cons t ts =>
      rw [hope_scan] at hr
      split at hr
      · rcases ih ts st cres r hr with h | ⟨u, hu, hn⟩
        · exact Or.inl h
        · exact Or.inr ⟨u, List.mem_cons_of_mem _ hu, hn⟩
      · split at hr
        next p hp =>
          split at hr
          · rcases ih ts _ cres r hr with h | ⟨u, hu, hn⟩
            · rcases hope_mem_rl_push.mp h with h2 | rfl
              · exact Or.inl h2
              · exact Or.inr ⟨t, List.mem_cons_self _ _, (hope_search_param_name hp).2⟩
            · exact Or.inr ⟨u, List.mem_cons_of_mem _ hu, hn⟩
          · split at hr
            · rcases ih ts st cres r hr with h | ⟨u, hu, hn⟩
              · exact Or.inl h
              · exact Or.inr ⟨u, List.mem_cons_of_mem _ hu, hn⟩
            · split at hr
              next => exact Or.inl hr
              next r3 ts2 hg =>
                obtain ⟨hn3, _, hsub⟩ := hope_greedy_ok hg
                rcases ih ts2 _ cres r hr with h | ⟨u, hu, hn⟩
                · rcases hope_mem_rl_push.mp h with h2 | rfl
                  · exact Or.inl h2
                  · exact Or.inr ⟨t, List.mem_cons_self _ _,
                      hn3.trans (hope_search_param_name hp).2⟩
                · exact Or.inr ⟨u, List.mem_cons_of_mem _ (hsub u hu), hn⟩
        next =>
          split at hr
          next c hc =>
            split at hr
            · exact Or.inl hr
            · split at hr
              next => exact Or.inl hr
              next cres2 hconv =>
                rcases ih ts st cres2 r hr with h | ⟨u, hu, hn⟩
                · exact Or.inl h
                · exact Or.inr ⟨u, List.mem_cons_of_mem _ hu, hn⟩
          next => exact Or.inl hr

/-- The scan never changes the collector result's name (only conversions touch
it, and they preserve the name). -/
theorem hope_scan_cres_name (set : hope_set) :
    ∀ (fuel : Nat) (toks : List String) (st : hope_store) (cres : hope_result),
      (hope_scan set fuel st cres toks).2.1.name = cres.name := by
  intro fuel
  induction fuel with
  | zero => intro toks st cres; rw [hope_scan]
  | succ n ih =>
    intro toks st cres
    cases toks with
    | nil => rw [hope_scan]
    | cons t ts =>
      rw [hope_scan]
      split
      · exact ih ts st cres
      · split
        next p hp =>
          split
          · exact ih ts _ cres
          · split
            · exact ih ts st cres
            · split
              next => rfl
              next r3 ts2 hg => exact ih ts2 _ cres
        next =>
          split
          next c hc =>
            split
            · rfl
            · split
              next => rfl
              next cres2 hconv => exact (ih ts st cres2).trans (hope_conv_preserves hconv).1
          next => rfl

/-- The missing-parameter pass only appends entries, and every appended entry is
an empty synthesized result for one of the processed parameters. -/
theorem hope_fill_append :
    ∀ (ps : List hope_param) (st : hope_store),
      ∃ suf, hope_rl (hope_fill_missing st ps).1 = hope_rl st ++ suf ∧
        ∀ r ∈ suf, ∃ p ∈ ps,
          r = { value := hope_value.nullv, name := p.name, count := 0, type := p.type } := by
  intro ps
  induction ps with
  | nil => intro st; exact ⟨[], by simp [hope_fill_missing], by simp⟩
  | cons p ps ih =>
    intro st
    simp only [hope_fill_missing]
    split
    · split
      · exact ⟨[], by simp, by simp⟩
      · obtain ⟨suf, h1, h2⟩ := ih st
        exact ⟨suf, h1, fun r hr =>
          (h2 r hr).elim fun q hq => ⟨q, List.mem_cons_of_mem _ hq.1, hq.2⟩⟩
    · split
      · obtain ⟨suf, h1, h2⟩ := ih
          (hope_push_parsed_result st
            { value := hope_value.nullv, name := p.name, count := 0, type := p.type })
        refine ⟨{ value := hope_value.nullv, name := p.name, count := 0, type := p.type } :: suf,
          ?_, ?_⟩
        · rw [h1, hope_rl_push, List.append_assoc]
          rfl
        · intro r hr
          rcases List.mem_cons.mp hr with rfl | hr2
          · exact ⟨p, List.mem_cons_self _ _, rfl⟩
          · exact (h2 r hr2).elim fun q hq => ⟨q, List.mem_cons_of_mem _ hq.1, hq.2⟩
      · obtain ⟨suf, h1, h2⟩ := ih st
        exact ⟨suf, h1, fun r hr =>
          (h2 r hr).elim fun q hq => ⟨q, List.mem_cons_of_mem _ hq.1, hq.2⟩⟩

/-- The missing-parameter pass returns either success or the arity-mismatch
code. -/
theorem hope_fill_code :
    ∀ (ps : List hope_param) (st : hope_store),
      (hope_fill_missing st ps).2 = HOPE_SUCCESS_CODE ∨
      (hope_fill_missing st ps).2 = HOPE_PARSE_ERR_PARAM_ARG_MISCOUNT_CODE := by
  intro ps
  induction ps with
  | nil => intro st; exact Or.inl rfl
  | cons p ps ih =>
    intro st
    simp only [hope_fill_missing]
    split
    · split
      · exact Or.inr rfl
      · exact ih st
    · split
      · exact ih _
      · exact ih st

/-- `hope_name_matches` is reflexive. -/
theorem hope_name_matches_refl (nm : Option String) : hope_name_matches nm nm = true := by
  cases nm <;> simp [hope_name_matches]

/-- A found result is a member whose name matches the query. -/
theorem hope_search_result_some {l : List hope_result} {nm : Option String}
    {r : hope_result} (h : hope_search_result l nm = some r) :
    r ∈ l ∧ hope_name_matches r.name nm = true := by
  unfold hope_search_result at h
  have h2 := List.find?_some h
  exact ⟨List.mem_of_find?_eq_some h, h2⟩

/-- After a successful missing-parameter pass, every processed parameter with a
well-formed arity (`nargs ≥ -3`) has a matching result entry. -/
theorem hope_fill_cover :
    ∀ (ps : List hope_param) (st st2 : hope_store),
      hope_fill_missing st ps = (st2, HOPE_SUCCESS_CODE) →
      ∀ p ∈ ps, HOPE_ARGC_OPT ≤ p.nargs →
        ∃ r ∈ hope_rl st2, hope_name_matches r.name p.name = true := by
  intro ps
  induction ps with
  | nil => intro st st2 h p hp; exact absurd hp (List.not_mem_nil p)
  | cons q ps ih =>
    intro st st2 h p hp harity
    have hsuffix : ∀ st', hope_fill_missing st' ps = (st2, HOPE_SUCCESS_CODE) →
        ∀ r ∈ hope_rl st', r ∈ hope_rl st2 := by
      intro st' h' r hr
      obtain ⟨suf, h1, _⟩ := hope_fill_append ps st'
      rw [h'] at h1
      rw [h1]
      exact List.mem_append_left _ hr
    simp only [hope_fill_missing] at h
    split at h
    next hreq =>
      split at h
      next hnone =>
        exact absurd (congrArg Prod.snd h) (by simp [HOPE_SUCCESS_CODE,
          HOPE_PARSE_ERR_PARAM_ARG_MISCOUNT_CODE])
      next hsome =>
        rcases List.mem_cons.mp hp with rfl | hp2
        · obtain ⟨r, hrfind⟩ := Option.ne_none_iff_exists'.mp hsome
          obtain ⟨hrmem, hrmatch⟩ := hope_search_result_some hrfind
          exact ⟨r, hsuffix st h r hrmem, hrmatch⟩
        · exact ih st st2 h p hp2 harity
    next hreq =>
      split at h
      next hcond =>
        rcases List.mem_cons.mp hp with rfl | hp2
        · refine ⟨{ value := hope_value.nullv, name := p.name, count := 0, type := p.type },
            hsuffix _ h _ ?_, hope_name_matches_refl _⟩
          rw [hope_rl_push]
          exact List.mem_append_right _ (List.mem_singleton.mpr rfl)
        · exact ih _ st2 h p hp2 harity
      next hcond =>
        rcases List.mem_cons.mp hp with rfl | hp2
        · have hopt : p.nargs = HOPE_ARGC_OPTMORE ∨ p.nargs = HOPE_ARGC_OPT ∨
              p.nargs = HOPE_ARGC_NONE := by
            simp only [HOPE_ARGC_MORE, HOPE_ARGC_NONE, not_or] at hreq
            simp only [HOPE_ARGC_OPTMORE, HOPE_ARGC_OPT, HOPE_ARGC_NONE]
            simp only [HOPE_ARGC_OPT] at harity
            omega
          have hsome : hope_search_result (hope_rl st) p.name ≠ none := by
            intro hnone
            exact hcond ⟨hopt, hnone⟩
          obtain ⟨r, hrfind⟩ := Option.ne_none_iff_exists'.mp hsome
          obtain ⟨hrmem, hrmatch⟩ := hope_search_result_some hrfind
          exact ⟨r, hsuffix st h r hrmem, hrmatch⟩
        · exact ih st st2 h p hp2 harity

/-- If nothing in a result list matches, the search fails. -/
theorem hope_search_result_none {l : List hope_result} {nm : Option String}
    (h : ∀ r ∈ l, hope_name_matches r.name nm = false) :
    hope_search_result l nm = none := by
  unfold hope_search_result
  apply List.find?_eq_none.mpr
  intro x hx
  simp [h x hx]

/-- The search returns the *first* matching entry: entries before the first
match are skipped, entries after it are never reached. -/
theorem hope_search_result_first {l1 l2 : List hope_result} {e : hope_result}
    {nm : Option String}
    (h1 : ∀ r ∈ l1, hope_name_matches r.name nm = false)
    (he : hope_name_matches e.name nm = true) :
    hope_search_result (l1 ++ e :: l2) nm = some e := by
  induction l1 with
  | nil => simp [hope_search_result, List.find?_cons, he]
  | cons a l1 ih =>
    have ha : hope_name_matches a.name nm = false := h1 a (List.mem_cons_self _ _)
    have hrest : ∀ r ∈ l1, hope_name_matches r.name nm = false :=
      fun r hr => h1 r (List.mem_cons_of_mem _ hr)
    simpa [hope_search_result, List.find?_cons, ha] using ih hrest

/-- If a processed parameter named `n` is optional and no entry matching `n` is
in the store yet, a successful missing-parameter pass places the synthesized
empty entry for it as the *first* `n`-matching entry of the final list. -/
theorem hope_fill_split :
    ∀ (ps : List hope_param) (st : hope_store) (n : String) (p : hope_param),
      p ∈ ps → p.name = some n →
      (∀ q ∈ ps, q.name = some n → q = p) →
      (p.nargs = HOPE_ARGC_OPTMORE ∨ p.nargs = HOPE_ARGC_OPT ∨ p.nargs = HOPE_ARGC_NONE) →
      (∀ r ∈ hope_rl st, hope_name_matches r.name (some n) = false) →
      ∀ st2, hope_fill_missing st ps = (st2, HOPE_SUCCESS_CODE) →
      ∃ l1 l2, hope_rl st2 =
          l1 ++ { value := hope_value.nullv, name := some n, count := 0, type := p.type } :: l2 ∧
        ∀ r ∈ l1, hope_name_matches r.name (some n) = false := by
  intro ps
  induction ps with
  | nil =>
    intro st n p hp
    exact absurd hp (List.not_mem_nil p)
  | cons q ps ih =>
    intro st n p hp hname huniq hopt hclean st2 h
    by_cases hq : hope_name_matches q.name (some n) = true
    · -- the head parameter is the unique parameter named n, i.e. p itself
      have hqname : q.name = some n := by
        cases hqn : q.name with
        | none => rw [hqn] at hq; simp [hope_name_matches] at hq
        | some m =>
          rw [hqn] at hq
          simp only [hope_name_matches, beq_iff_eq] at hq
          rw [hq]
      have hqp : q = p := huniq q (List.mem_cons_self _ _) hqname
      subst hqp
      have hpr : hope_search_result (hope_rl st) q.name = none := by
        rw [hqname]
        exact hope_search_result_none hclean
      have hreq : ¬(q.nargs = HOPE_ARGC_MORE ∨ q.nargs > HOPE_ARGC_NONE) := by
        rcases hopt with h1 | h1 | h1 <;> rw [h1] <;> decide
      simp only [hope_fill_missing] at h
      rw [if_neg hreq, if_pos ⟨hopt, hpr⟩] at h
      obtain ⟨suf, hsuf1, _⟩ := hope_fill_append ps
        (hope_push_parsed_result st
          { value := hope_value.nullv, name := q.name, count := 0, type := q.type })
      rw [h] at hsuf1
      refine ⟨hope_rl st, suf, ?_, hclean⟩
      rw [hsuf1, hope_rl_push, hqname, List.append_assoc]
      rfl
    · -- the head parameter does not match n; the invariant is preserved
      have hqfalse : hope_name_matches q.name (some n) = false := by
        cases hb : hope_name_matches q.name (some n)
        · rfl
        · exact absurd hb hq
      have hptail : p ∈ ps := by
        rcases List.mem_cons.mp hp with rfl | h2
        · exact absurd (hname ▸ hope_name_matches_refl (some n) : _) hq
        · exact h2
      have huniq2 : ∀ x ∈ ps, x.name = some n → x = p :=
        fun x hx => huniq x (List.mem_cons_of_mem _ hx)
      simp only [hope_fill_missing] at h
      split at h
      · split at h
        · exact absurd (congrArg Prod.snd h) (by simp [HOPE_SUCCESS_CODE,
            HOPE_PARSE_ERR_PARAM_ARG_MISCOUNT_CODE])
        · exact ih st n p hptail hname huniq2 hopt hclean st2 h
      · split at h
        · refine ih _ n p hptail hname huniq2 hopt ?_ st2 h
          intro r hr
          rcases hope_mem_rl_push.mp hr with h2 | rfl
          · exact hclean r h2
          · exact hqfalse
        · exact ih st n p hptail hname huniq2 hopt hclean st2 h

/-- Shape of a successful collector finalization: either there is no collector
and the store is unchanged, or there is one and exactly the (re-typed)
accumulated collector result is appended. -/
theorem hope_finish_collector_shape {set : hope_set} {st : hope_store}
    {cres : hope_result} {st3 : hope_store}
    (h : hope_finish_collector set st cres = (st3, HOPE_SUCCESS_CODE)) :
    (set.collector = none ∧ st3 = st) ∨
    (∃ c, set.collector = some c ∧
      st3 = hope_push_parsed_result st { cres with type := c.type }) := by
  unfold hope_finish_collector at h
  split at h
  next hc =>
    exact Or.inl ⟨hc, ((Prod.mk.injEq _ _ _ _).mp h).1.symm⟩
  next c hc =>
    split at h
    · exact absurd (congrArg Prod.snd h) (by simp [HOPE_SUCCESS_CODE,
        HOPE_PARSE_ERR_PARAM_ARG_MISCOUNT_CODE])
    · exact Or.inr ⟨c, hc, ((Prod.mk.injEq _ _ _ _).mp h).1.symm⟩

/-- The collector finalization returns either success or the arity-mismatch
code. -/
theorem hope_finish_collector_code (set : hope_set) (st : hope_store)
    (cres : hope_result) :
    (hope_finish_collector set st cres).2 = HOPE_SUCCESS_CODE ∨
    (hope_finish_collector set st cres).2 = HOPE_PARSE_ERR_PARAM_ARG_MISCOUNT_CODE := by
  unfold hope_finish_collector
  split
  · exact Or.inl rfl
  · split
    · exact Or.inr rfl
    · exact Or.inl rfl

/-- A successful `hope_parse_set` decomposes into a successful scan, a
successful missing-parameter pass, and a successful collector finalization; its
published result array is the one of the final phase. -/
theorem hope_parse_set_success_shape {set : hope_set} {args : List String}
    (h : (hope_parse_set set args).2 = HOPE_SUCCESS_CODE) :
    (hope_scan_phase set args).2.2 = HOPE_SUCCESS_CODE ∧
    (hope_fill_phase set args).2 = HOPE_SUCCESS_CODE ∧
    (hope_collector_phase set args).2 = HOPE_SUCCESS_CODE ∧
    (hope_parse_set set args).1.results = (hope_collector_phase set args).1.results ∧
    (hope_parse_set set args).1.nresults = (hope_collector_phase set args).1.nresults := by
  unfold hope_parse_set at h ⊢
  split at h
  · exact absurd h (by simp [hope_defer, HOPE_SUCCESS_CODE,
      HOPE_PARSE_ERR_PARAM_MISCOUNT_CODE])
  next h0 =>
    split at h
    next h1 => exact absurd h (by simpa [hope_defer] using h1)
    next h1 =>
      split at h
      next h2 => exact absurd h (by simpa [hope_defer] using h2)
      next h2 =>
        split at h
        next h3 => exact absurd h (by simpa [hope_defer] using h3)
        next h3 =>
          refine ⟨not_ne_iff.mp h1, not_ne_iff.mp h2, not_ne_iff.mp h3, ?_⟩
          rw [if_neg h0, if_neg h1, if_neg h2, if_neg h3]
          exact ⟨rfl, rfl⟩

/-- `hope_parse_set` never changes the set's name, parameter list, or
collector. -/
theorem hope_parse_set_decls (set : hope_set) (args : List String) :
    (hope_parse_set set args).1.name = set.name ∧
    (hope_parse_set set args).1.params = set.params ∧
    (hope_parse_set set args).1.collector = set.collector := by
  unfold hope_parse_set
  split
  · exact ⟨rfl, rfl, rfl⟩
  · split
    · exact ⟨rfl, rfl, rfl⟩
    · split
      · exact ⟨rfl, rfl, rfl⟩
      · split
        · exact ⟨rfl, rfl, rfl⟩
        · exact ⟨rfl, rfl, rfl⟩

/-- After a successful parse of a clean set, a declared optional parameter whose
(unique) name does not occur among the tokens is looked up as the synthesized
empty entry: NULL value array, count 0, the parameter's declared type. -/
theorem hope_absent_entry {set : hope_set} {args : List String} {n : String}
    {p : hope_param}
    (hclean : set.results = none)
    (hmem : p ∈ set.params) (hname : p.name = some n)
    (huniq : ∀ q ∈ set.params, q.name = some n → q = p)
    (hopt : p.nargs = HOPE_ARGC_OPTMORE ∨ p.nargs = HOPE_ARGC_OPT ∨
      p.nargs = HOPE_ARGC_NONE)
    (habs : n ∉ args)
    (hsucc : (hope_parse_set set args).2 = HOPE_SUCCESS_CODE) :
    hope_search_result ((hope_parse_set set args).1.results.getD []) (some n) =
      some { value := hope_value.nullv, name := some n, count := 0, type := p.type } := by
  obtain ⟨hs1, hs2, hs3, hres, _⟩ := hope_parse_set_success_shape hsucc
  have hscan : ∀ r ∈ hope_rl (hope_scan_phase set args).1,
      hope_name_matches r.name (some n) = false := by
    intro r hr
    rcases hope_scan_results set (args.length + 1) args
        { results := set.results, nresults := set.nresults } hope_zero_result r hr with
      h | ⟨t, ht, hn⟩
    · simp [hope_rl, hclean] at h
    · rw [hn]
      simp only [hope_name_matches]
      exact beq_eq_false_iff_ne.mpr fun heq => habs (heq ▸ ht)
  have hfill : hope_fill_missing (hope_scan_phase set args).1 set.params =
      ((hope_fill_phase set args).1, HOPE_SUCCESS_CODE) := by
    rw [← hs2]
    exact Prod.mk.eta.symm
  obtain ⟨l1, l2, hsplit, hl1⟩ := hope_fill_split set.params (hope_scan_phase set args).1
    n p hmem hname huniq hopt hscan (hope_fill_phase set args).1 hfill
  have hcol : hope_finish_collector set (hope_fill_phase set args).1
      (hope_scan_phase set args).2.1 =
      ((hope_collector_phase set args).1, HOPE_SUCCESS_CODE) := by
    rw [← hs3]
    exact Prod.mk.eta.symm
  have hfinal : ∃ l2', hope_rl (hope_collector_phase set args).1 =
      l1 ++ { value := hope_value.nullv, name := some n, count := 0, type := p.type } :: l2' := by
    rcases hope_finish_collector_shape hcol with ⟨_, h3⟩ | ⟨c, _, h3⟩
    · exact ⟨l2, by rw [h3, hsplit]⟩
    · refine ⟨l2 ++ [{ (hope_scan_phase set args).2.1 with type := c.type }], ?_⟩
      rw [h3, hope_rl_push, hsplit, List.append_assoc]
      rfl
  obtain ⟨l2', hfin⟩ := hfinal
  have hgoal : (hope_parse_set set args).1.results.getD [] =
      hope_rl (hope_collector_phase set args).1 := by
    rw [hres]; rfl
  rw [hgoal, hfin]
  exact hope_search_result_first hl1 (hope_name_matches_refl (some n))

/-- After a successful parse of a clean set whose declared parameters are all
named, the committed result collection holds exactly one NULL-named entry when a
collector is declared and none otherwise. -/
theorem hope_success_countNone {set : hope_set} {args : List String}
    (hclean : set.results = none)
    (hnamed : ∀ p ∈ set.params, p.name ≠ none)
    (hsucc : (hope_parse_set set args).2 = HOPE_SUCCESS_CODE) :
    ((hope_parse_set set args).1.results.getD []).countP (fun r => r.name.isNone) =
      (if set.collector.isSome then 1 else 0) := by
  obtain ⟨hs1, hs2, hs3, hres, _⟩ := hope_parse_set_success_shape hsucc
  have hscan : ((hope_rl (hope_scan_phase set args).1).countP
      (fun r => r.name.isNone)) = 0 := by
    apply List.countP_eq_zero.mpr
    intro r hr
    rcases hope_scan_results set (args.length + 1) args
        { results := set.results, nresults := set.nresults } hope_zero_result r hr with
      h | ⟨t, ht, hn⟩
    · simp [hope_rl, hclean] at h
    · simp [hn]
  obtain ⟨suf, hsuf1, hsuf2⟩ := hope_fill_append set.params (hope_scan_phase set args).1
  have hfill : ((hope_rl (hope_fill_phase set args).1).countP
      (fun r => r.name.isNone)) = 0 := by
    have : hope_rl (hope_fill_phase set args).1 =
        hope_rl (hope_scan_phase set args).1 ++ suf := hsuf1
    rw [this, List.countP_append, hscan]
    simp only [Nat.zero_add]
    apply List.countP_eq_zero.mpr
    intro r hr
    obtain ⟨q, hq1, hq2⟩ := hsuf2 r hr
    cases hqn : q.name with
    | none => exact absurd hqn (hnamed q hq1)
    | some m => simp [hq2, hqn]
  have hcol : hope_finish_collector set (hope_fill_phase set args).1
      (hope_scan_phase set args).2.1 =
      ((hope_collector_phase set args).1, HOPE_SUCCESS_CODE) := by
    rw [← hs3]
    exact Prod.mk.eta.symm
  have hgoal : (hope_parse_set set args).1.results.getD [] =
      hope_rl (hope_collector_phase set args).1 := by
    rw [hres]; rfl
  rw [hgoal]
  rcases hope_finish_collector_shape hcol with ⟨hc, h3⟩ | ⟨c, hc, h3⟩
  · rw [h3, hfill, hc]
    rfl
  · rw [h3, hope_rl_push, List.countP_append, hfill, hc]
    have hcres : (hope_scan_phase set args).2.1.name = none :=
      hope_scan_cres_name set (args.length + 1) args _ hope_zero_result
    simp [hcres]

/-- `hope_fill_append` in hypothesis style. -/
theorem hope_fill_append_eq {ps : List hope_param} {st st2 : hope_store} {c : Nat}
    (h : hope_fill_missing st ps = (st2, c)) :
    ∃ suf, hope_rl st2 = hope_rl st ++ suf ∧
      ∀ r ∈ suf, ∃ p ∈ ps,
        r = { value := hope_value.nullv, name := p.name, count := 0, type := p.type } := by
  obtain ⟨suf, h1, h2⟩ := hope_fill_append ps st
  rw [h] at h1
  exact ⟨suf, h1, h2⟩

/-- The set-trial loop commits the first set whose parse succeeds, leaving the
later sets untouched. -/
theorem hope_parse_sets_commit :
    ∀ (pre : List hope_set) (s : hope_set) (post : List hope_set) (args : List String),
      (∀ t ∈ pre, (hope_parse_set t args).2 ≠ HOPE_SUCCESS_CODE) →
      (hope_parse_set s args).2 = HOPE_SUCCESS_CODE →
      hope_parse_sets args (pre ++ s :: post) =
        (pre.map (fun t => (hope_parse_set t args).1) ++ (hope_parse_set s args).1 :: post,
         some (hope_parse_set s args).1) := by
  intro pre
  induction pre with
  | nil =>
    intro s post args hpre hs
    simp only [List.nil_append, hope_parse_sets, List.map_nil]
    rw [if_pos hs]
  | cons a pre ih =>
    intro s post args hpre hs
    simp only [List.cons_append, hope_parse_sets, List.map_cons]
    rw [if_neg (hpre a (List.mem_cons_self _ _))]
    simp only [List.append_eq]
    rw [ih s post args (fun t ht => hpre t (List.mem_cons_of_mem _ ht)) hs]

/-! ### Claim theorems -/

/-- C1: the claim says a failed `hope_parse_set` discards every partial result,
leaves no partial state visible, and lets a re-issued parse start from a clean
slate with no stale result state.  The code frees the result array and NULLs
the pointer at `defer` (hope.h:905-906), but it never resets `set->nresults`:
after the parse of `SA` on `["-a", "x"]` fails (the switch entry was already
pushed, then the unmatched token `"x"` hits no collector), the set is left with
`results = NULL` but `nresults = 1` — stale state a re-issued parse then treats
as one live entry of a freshly reallocated (uninitialized) array. -/
theorem c1_failure_leaves_stale_nresults :
    (hope_parse_set SA ["-a", "x"]).2 = HOPE_PARSE_ERR_PARAM_MISCOUNT_CODE ∧
    (hope_parse_set SA ["-a", "x"]).1.results = none ∧
    (hope_parse_set SA ["-a", "x"]).1.nresults = 1 := by decide

/-- C2 counterexample: the claim says a successful parse yields *exactly one*
result entry per declared named parameter.  Parsing `S2` (which declares `-a`
once) on `["-a", "-a"]` succeeds with *two* entries named `-a`. -/
theorem c2_counterexample :
    (hope_parse_set S2 ["-a", "-a"]).2 = HOPE_SUCCESS_CODE ∧
    ((hope_parse_set S2 ["-a", "-a"]).1.results.getD []).countP
      (fun r => r.name == some "-a") = 2 := by decide

/-- C2 (amended): for every clean set whose declared parameters are all named
and carry well-formed arities, a successful `hope_parse_set` yields *at least*
one result entry per declared named parameter (several when the name was
matched several times), *exactly one* entry for the collector when one is
declared and none otherwise, and for every optional declared parameter whose
name does not occur in the token list an entry with an empty value sequence. -/
theorem c2_amended (set : hope_set) (args : List String)
    (hclean : set.results = none)
    (hnamed : ∀ p ∈ set.params, p.name ≠ none)
    (harity : ∀ p ∈ set.params, HOPE_ARGC_OPT ≤ p.nargs)
    (hsucc : (hope_parse_set set args).2 = HOPE_SUCCESS_CODE) :
    (∀ p ∈ set.params, ∃ r ∈ (hope_parse_set set args).1.results.getD [],
        hope_name_matches r.name p.name = true) ∧
    ((hope_parse_set set args).1.results.getD []).countP (fun r => r.name.isNone) =
      (if set.collector.isSome then 1 else 0) ∧
    (∀ p ∈ set.params, ∀ n, p.name = some n → n ∉ args →
      ∃ r ∈ (hope_parse_set set args).1.results.getD [],
        r.name = some n ∧ r.count = 0 ∧ r.value = hope_value.nullv) := by
  obtain ⟨hs1, hs2, hs3, hres, _⟩ := hope_parse_set_success_shape hsucc
  have hfill : hope_fill_missing (hope_scan_phase set args).1 set.params =
      ((hope_fill_phase set args).1, HOPE_SUCCESS_CODE) := by
    rw [← hs2]
    exact Prod.mk.eta.symm
  have hcol : hope_finish_collector set (hope_fill_phase set args).1
      (hope_scan_phase set args).2.1 =
      ((hope_collector_phase set args).1, HOPE_SUCCESS_CODE) := by
    rw [← hs3]
    exact Prod.mk.eta.symm
  have hfinal_eq : (hope_parse_set set args).1.results.getD [] =
      hope_rl (hope_collector_phase set args).1 := by
    rw [hres]; rfl
  have hlift : ∀ r ∈ hope_rl (hope_fill_phase set args).1,
      r ∈ (hope_parse_set set args).1.results.getD [] := by
    intro r hr
    rw [hfinal_eq]
    rcases hope_finish_collector_shape hcol with ⟨_, h3⟩ | ⟨c, _, h3⟩
    · rw [h3]; exact hr
    · rw [h3, hope_rl_push]; exact List.mem_append_left _ hr
  refine ⟨?_, hope_success_countNone hclean hnamed hsucc, ?_⟩
  · intro p hp
    obtain ⟨r, hr1, hr2⟩ := hope_fill_cover set.params (hope_scan_phase set args).1
      (hope_fill_phase set args).1 hfill p hp (harity p hp)
    exact ⟨r, hlift r hr1, hr2⟩
  · intro p hp n hn habs
    obtain ⟨r, hr1, hr2⟩ := hope_fill_cover set.params (hope_scan_phase set args).1
      (hope_fill_phase set args).1 hfill p hp (harity p hp)
    have hrname : r.name = some n := by
      rw [hn] at hr2
      cases hrn : r.name with
      | none => rw [hrn] at hr2; simp [hope_name_matches] at hr2
      | some m =>
        rw [hrn] at hr2
        simp only [hope_name_matches, beq_iff_eq] at hr2
        rw [hr2]
    obtain ⟨suf, hsuf1, hsuf2⟩ := hope_fill_append_eq hfill
    rw [hsuf1] at hr1
    rcases List.mem_append.mp hr1 with hscan | hsuf
    · exfalso
      rcases hope_scan_results set (args.length + 1) args
          { results := set.results, nresults := set.nresults } hope_zero_result r hscan with
        h | ⟨t, ht, hname2⟩
      · simp [hope_rl, hclean] at h
      · rw [hname2] at hrname
        exact habs ((Option.some.injEq _ _).mp hrname ▸ ht)
    · obtain ⟨q, hq1, hq2⟩ := hsuf2 r hsuf
      refine ⟨r, ?_, hrname, by rw [hq2], by rw [hq2]⟩
      exact hlift r (by rw [hsuf1]; exact List.mem_append_right _ hsuf)

/-- C2 amended witness: the amended claim instantiated on the set `SW`
(optional switch plus a zero-or-more String collector) and tokens
`["-a", "x"]`. -/
theorem c2_amended_witness :
    (∀ p ∈ SW.params, ∃ r ∈ (hope_parse_set SW ["-a", "x"]).1.results.getD [],
        hope_name_matches r.name p.name = true) ∧
    ((hope_parse_set SW ["-a", "x"]).1.results.getD []).countP (fun r => r.name.isNone) =
      (if SW.collector.isSome then 1 else 0) ∧
    (∀ p ∈ SW.params, ∀ n, p.name = some n → n ∉ ["-a", "x"] →
      ∃ r ∈ (hope_parse_set SW ["-a", "x"]).1.results.getD [],
        r.name = some n ∧ r.count = 0 ∧ r.value = hope_value.nullv) :=
  c2_amended SW ["-a", "x"] rfl (by decide) (by decide) (by decide)

/-- C3 counterexample: the claim says parsing `["-s", "--", "-h"]` binds `-s`
to the single-value list `["-h"]`.  In the code the separator `--` immediately
*ends* the greedy value consumption for `-s` (hope.h:829), so `-s` is bound to
the empty sequence — not to `["-h"]` — and the parse still succeeds. -/
theorem c3_counterexample :
    (hope_parse_set S3 ["-s", "--", "-h"]).2 = HOPE_SUCCESS_CODE ∧
    hope_search_result ((hope_parse_set S3 ["-s", "--", "-h"]).1.results.getD [])
        (some "-s") =
      some { value := hope_value.nullv, name := some "-s", count := 0,
             type := hope_argtype.STRING } ∧
    hope_search_result ((hope_parse_set S3 ["-s", "--", "-h"]).1.results.getD [])
        (some "-s") ≠
      some { value := hope_value.strings ["-h"], name := some "-s", count := 1,
             type := hope_argtype.STRING } := by decide

/-- C3 (amended): parsing `["-s", "--", "-h"]` against `S3` succeeds with `-s`
bound to the *empty* value sequence (the `--` ends the lookahead for `-s`
without being consumed and without supplying any value) and with `-h` matched
as the declared switch (recorded present), not taken as a literal value. -/
theorem c3_amended :
    hope_parse_set S3 ["-s", "--", "-h"] =
      ({ S3 with
          results := some
            [{ value := hope_value.nullv, name := some "-s", count := 0,
               type := hope_argtype.STRING },
             { value := hope_value.switchOn, name := some "-h", count := 0,
               type := hope_argtype.SWITCH }]
          nresults := 2 }, HOPE_SUCCESS_CODE) := by decide

/-- C4 counterexample: the claim says the up-front empty-token-list check fails
with `ArityMismatch` (the code 0x33 used for all other arity failures), and
that sets whose arities require no value are not rejected.  The code returns
`HOPE_PARSE_ERR_PARAM_MISCOUNT_CODE` (0x31) instead, and also rejects a set
whose only parameter has arity None (which requires zero values). -/
theorem c4_counterexample :
    (hope_parse_set SB []).2 = HOPE_PARSE_ERR_PARAM_MISCOUNT_CODE ∧
    (hope_parse_set SB []).2 ≠ HOPE_PARSE_ERR_PARAM_ARG_MISCOUNT_CODE ∧
    (hope_parse_set SBnone []).2 = HOPE_PARSE_ERR_PARAM_MISCOUNT_CODE := by decide

/-- C4 (amended): on the empty token list, `hope_parse_set` fails with the
parameter-miscount code 0x31 (not the arity-mismatch code 0x33) exactly when
the set declares a named parameter with `nargs ≥ -1` (OneOrMore, None, or an
exact count), or — only when no named parameter is declared at all — the
collector has `nargs ≥ -1` and `nargs ≠ 0`; otherwise the empty list is not
rejected by this up-front check. -/
theorem c4_amended (set : hope_set) :
    (hope_parse_set set []).2 = HOPE_PARSE_ERR_PARAM_MISCOUNT_CODE ↔
      ((set.params ≠ [] ∧ ∃ p ∈ set.params, HOPE_ARGC_MORE ≤ p.nargs) ∨
       (set.params = [] ∧ ∃ c, set.collector = some c ∧
          HOPE_ARGC_MORE ≤ c.nargs ∧ c.nargs ≠ 0)) := by
  have hcheck : hope_empty_check set = true ↔
      ((set.params ≠ [] ∧ ∃ p ∈ set.params, HOPE_ARGC_MORE ≤ p.nargs) ∨
       (set.params = [] ∧ ∃ c, set.collector = some c ∧
          HOPE_ARGC_MORE ≤ c.nargs ∧ c.nargs ≠ 0)) := by
    unfold hope_empty_check
    split
    next hlen =>
      have hne : set.params ≠ [] := by
        intro hnil
        rw [hnil] at hlen
        exact absurd hlen (by simp)
      constructor
      · intro h
        obtain ⟨p, hp1, hp2⟩ := List.any_eq_true.mp h
        exact Or.inl ⟨hne, p, hp1, of_decide_eq_true hp2⟩
      · intro h
        rcases h with ⟨_, p, hp1, hp2⟩ | ⟨hnil, _⟩
        · exact List.any_eq_true.mpr ⟨p, hp1, decide_eq_true hp2⟩
        · exact absurd hnil hne
    next hlen =>
      have hnil : set.params = [] := by
        cases hps : set.params with
        | nil => rfl
        | cons a l => rw [hps] at hlen; exact absurd (by simp) hlen
      split
      next c hc =>
        constructor
        · intro h
          exact Or.inr ⟨hnil, c, hc, of_decide_eq_true h⟩
        · intro h
          rcases h with ⟨hne, _⟩ | ⟨_, c2, hc2, h2⟩
          · exact absurd hnil hne
          · rw [hc] at hc2
            exact decide_eq_true ((Option.some.injEq _ _).mp hc2 ▸ h2)
      next hc =>
        constructor
        · intro h
          exact absurd h (by simp)
        · intro h
          rcases h with ⟨hne, _⟩ | ⟨_, c2, hc2, _⟩
          · exact absurd hnil hne
          · rw [hc] at hc2
            exact absurd hc2 (by simp)
  have hnot : hope_empty_check set = false →
      (hope_parse_set set []).2 ≠ HOPE_PARSE_ERR_PARAM_MISCOUNT_CODE := by
    intro hchk
    unfold hope_parse_set
    rw [if_neg (by simp [hchk])]
    split
    next h1 =>
      exact absurd (show (hope_scan_phase set []).2.2 = HOPE_SUCCESS_CODE from rfl) h1
    next h1 =>
      split
      next h2 =>
        rcases hope_fill_code set.params (hope_scan_phase set []).1 with hc | hc
        · exact absurd hc h2
        · simp only [hope_defer]
          rw [show (hope_fill_phase set []).2 =
              HOPE_PARSE_ERR_PARAM_ARG_MISCOUNT_CODE from hc]
          decide
      next h2 =>
        split
        next h3 =>
          rcases hope_finish_collector_code set (hope_fill_phase set []).1
              (hope_scan_phase set []).2.1 with hc | hc
          · exact absurd hc h3
          · simp only [hope_defer]
            rw [show (hope_collector_phase set []).2 =
                HOPE_PARSE_ERR_PARAM_ARG_MISCOUNT_CODE from hc]
            decide
        next h3 =>
          simp [HOPE_SUCCESS_CODE, HOPE_PARSE_ERR_PARAM_MISCOUNT_CODE]
  constructor
  · intro h
    cases hchk : hope_empty_check set with
    | false => exact absurd h (hnot hchk)
    | true => exact hcheck.mp hchk
  · intro h
    have hchk := hcheck.mpr h
    unfold hope_parse_set
    rw [if_pos ⟨rfl, hchk⟩]
    rfl

/-- C4 amended witness: the amended claim instantiated on `SB` (whose only
parameter `-i` has arity OneOrMore): the empty token list is rejected with
code 0x31. -/
theorem c4_amended_witness :
    (hope_parse_set SB []).2 = HOPE_PARSE_ERR_PARAM_MISCOUNT_CODE :=
  (c4_amended SB).mpr (Or.inl ⟨by decide, ⟨some "-i", none, .INTEGER, HOPE_ARGC_MORE⟩,
    by decide, by decide⟩)

/-- C5: `hope_parse` tries its parameter sets in declaration order, giving each
the same full token list; the first set whose match succeeds is committed — its
name, results and result count become the parser's current state — and no
further set is tried (the sets after the committed one are left untouched). -/
theorem c5_first_success_committed (h : hope_t) (args : List String)
    (pre : List hope_set) (s : hope_set) (post : List hope_set)
    (hsets : h.sets = pre ++ s :: post)
    (hpre : ∀ t ∈ pre, (hope_parse_set t args).2 ≠ HOPE_SUCCESS_CODE)
    (hs : (hope_parse_set s args).2 = HOPE_SUCCESS_CODE) :
    (hope_parse h args).2 = HOPE_SUCCESS_CODE ∧
    (hope_parse h args).1.used_set_name = some s.name ∧
    (hope_parse h args).1.results = (hope_parse_set s args).1.results ∧
    (hope_parse h args).1.nresults = (hope_parse_set s args).1.nresults ∧
    (hope_parse h args).1.sets =
      pre.map (fun t => (hope_parse_set t args).1) ++ (hope_parse_set s args).1 :: post := by
  have hcommit := hope_parse_sets_commit pre s post args hpre hs
  unfold hope_parse
  rw [hsets, hcommit]
  refine ⟨rfl, ?_, rfl, rfl, rfl⟩
  show some (hope_parse_set s args).1.name = some s.name
  rw [(hope_parse_set_decls s args).1]

/-- C5 witness: on `H5` (sets `Help` then `Default`), tokens `["-v"]` fail
`Help` and commit `Default`; the empty token list commits `Help` even though
`Default` alone would also succeed on it. -/
theorem c5_witness :
    (hope_parse H5 ["-v"]).2 = HOPE_SUCCESS_CODE ∧
    (hope_parse H5 ["-v"]).1.used_set_name = some "Default" ∧
    (hope_parse H5 []).2 = HOPE_SUCCESS_CODE ∧
    (hope_parse H5 []).1.used_set_name = some "Help" ∧
    (hope_parse_set SDefault []).2 = HOPE_SUCCESS_CODE := by
  refine ⟨?_, ?_, ?_, ?_, by decide⟩
  · exact (c5_first_success_committed H5 ["-v"] [SHelp] SDefault [] rfl
      (by decide) (by decide)).1
  · exact (c5_first_success_committed H5 ["-v"] [SHelp] SDefault [] rfl
      (by decide) (by decide)).2.1
  · exact (c5_first_success_committed H5 [] [] SHelp [SDefault] rfl
      (by decide) (by decide)).1
  · exact (c5_first_success_committed H5 [] [] SHelp [SDefault] rfl
      (by decide) (by decide)).2.1

/-- C6: the claim (and the header comment, hope.h:164) says the fallible
getters set the caller's destination to NULL on failure.  They do return -1 and
report NotFound (0x41) / TypeMismatch (0x42), but on both failure paths the
assignment `dest = NULL;` writes the *local* parameter, not through the
pointer: the caller's destination is never written (`wrote = none`), so it is
left unchanged rather than set to an explicit absent state.  Evaluated on the
committed parse `H6` (set `s6`, tokens `["-i", "5"]`). -/
theorem c6_dest_never_written_on_failure :
    hope_get_string H6 (some "-x") =
      { ret := -1, wrote := none, err := some HOPE_GET_ERR_NOEXIST_CODE } ∧
    hope_get_string H6 (some "-i") =
      { ret := -1, wrote := none, err := some HOPE_GET_ERR_TYPE_MISMATCH_CODE } ∧
    hope_get_integer H6 (some "-x") =
      { ret := -1, wrote := none, err := some HOPE_GET_ERR_NOEXIST_CODE } ∧
    hope_get_switch H6 (some "-i") =
      { ret := -1, wrote := none, err := some HOPE_GET_ERR_TYPE_MISMATCH_CODE } ∧
    hope_get_integer H6 (some "-i") =
      { ret := 1, wrote := some (some [5]), err := none } := by decide

/-- C7 counterexample: the claim says the single-value convenience accessor on
an optional, absent String parameter returns the empty string.
`hope_get_single_string` returns `count ? strings[0] : NULL` (hope.h:1050): on
the committed parse `H7` (all parameters optional, empty token list) it returns
the NULL pointer, not the empty string. -/
theorem c7_counterexample :
    hope_get_single_string H7 (some "-s") = some none ∧
    hope_get_single_string H7 (some "-s") ≠ some (some "") := by decide

/-- C7 (amended): a single-value convenience accessor called on a declared
parameter of the matching type that was optional and absent returns the
type-appropriate default: `false` for switch, `0` for integer, `0.0` for
double, and the NULL pointer — not the empty string — for string. -/
theorem c7_amended (set : hope_set) (args : List String) (n : String)
    (p : hope_param)
    (hclean : set.results = none)
    (hmem : p ∈ set.params) (hname : p.name = some n)
    (huniq : ∀ q ∈ set.params, q.name = some n → q = p)
    (hopt : p.nargs = HOPE_ARGC_OPTMORE ∨ p.nargs = HOPE_ARGC_OPT ∨
      p.nargs = HOPE_ARGC_NONE)
    (habs : n ∉ args)
    (hsucc : (hope_parse_set set args).2 = HOPE_SUCCESS_CODE)
    (h : hope_t) (hres : h.results = (hope_parse_set set args).1.results) :
    (p.type = hope_argtype.SWITCH → hope_get_single_switch h (some n) = some false) ∧
    (p.type = hope_argtype.INTEGER → hope_get_single_integer h (some n) = some 0) ∧
    (p.type = hope_argtype.DOUBLE → hope_get_single_double h (some n) = some 0) ∧
    (p.type = hope_argtype.STRING → hope_get_single_string h (some n) = some none) := by
  have hfind : hope_search_result (h.results.getD []) (some n) =
      some { value := hope_value.nullv, name := some n, count := 0, type := p.type } := by
    rw [hres]
    exact hope_absent_entry hclean hmem hname huniq hopt habs hsucc
  refine ⟨?_, ?_, ?_, ?_⟩ <;> intro ht <;>
    simp [hope_get_single_switch, hope_get_single_integer, hope_get_single_double,
      hope_get_single_string, hfind, ht, hope_value_switch, hope_value_integers,
      hope_value_doubles, hope_value_strings]

/-- C7 amended witness: the four defaults observed through the committed parse
`H7` (set `S7`, empty token list). -/
theorem c7_witness :
    hope_get_single_switch H7 (some "-b") = some false ∧
    hope_get_single_integer H7 (some "-i") = some 0 ∧
    hope_get_single_double H7 (some "-d") = some 0 ∧
    hope_get_single_string H7 (some "-s") = some none := by
  refine ⟨?_, ?_, ?_, ?_⟩
  · exact (c7_amended S7 [] "-b" ⟨some "-b", none, .SWITCH, HOPE_ARGC_OPT⟩ rfl
      (by decide) rfl (by decide) (by decide) (by decide) (by decide) H7 rfl).1 rfl
  · exact (c7_amended S7 [] "-i" ⟨some "-i", none, .INTEGER, HOPE_ARGC_OPT⟩ rfl
      (by decide) rfl (by decide) (by decide) (by decide) (by decide) H7 rfl).2.1 rfl
  · exact (c7_amended S7 [] "-d" ⟨some "-d", none, .DOUBLE, HOPE_ARGC_OPT⟩ rfl
      (by decide) rfl (by decide) (by decide) (by decide) (by decide) H7 rfl).2.2.1 rfl
  · exact (c7_amended S7 [] "-s" ⟨some "-s", none, .STRING, HOPE_ARGC_OPT⟩ rfl
      (by decide) rfl (by decide) (by decide) (by decide) (by decide) H7 rfl).2.2.2 rfl

/-- C8: parsing `["-i", "1", "2", "3"]` against a set whose `-i` is an Integer
parameter of exact arity 3 succeeds and binds `-i` to the value sequence
`[1, 2, 3]` in that order; greedy consumption stops once the count reaches the
declared arity. -/
theorem c8_exact3_roundtrip :
    hope_parse_set S8 ["-i", "1", "2", "3"] =
      ({ S8 with
          results := some
            [{ value := hope_value.integers [1, 2, 3], name := some "-i", count := 3,
               type := hope_argtype.INTEGER }]
          nresults := 1 }, HOPE_SUCCESS_CODE) := by decide

/-- C9 counterexample: the claim says a separate result entry is pushed for
*each* occurrence of a declared parameter's name in the token list whenever the
parse succeeds.  For a parameter of arity None the scan's `continue`
(hope.h:826) skips the push entirely: parsing `S9n` on `["-n", "-n"]` succeeds
with exactly *one* entry named `-n` (the synthesized empty one), not two. -/
theorem c9_counterexample :
    (hope_parse_set S9n ["-n", "-n"]).2 = HOPE_SUCCESS_CODE ∧
    ((hope_parse_set S9n ["-n", "-n"]).1.results.getD []).countP
      (fun r => r.name == some "-n") = 1 := by decide

/-- C9 (amended): each *processed* occurrence of a parameter name whose arity
is not None pushes its own result entry, so the committed collection can hold
several entries under one name (two entries for `-i` on
`["-i", "1", "-i", "2"]`), and every accessor reads only the earliest
occurrence's entry because `hope_search_result` returns the first result whose
name matches. -/
theorem c9_amended :
    ((hope_parse_set S9 ["-i", "1", "-i", "2"]).2 = HOPE_SUCCESS_CODE ∧
     (hope_parse_set S9 ["-i", "1", "-i", "2"]).1.results.getD [] =
       [{ value := hope_value.integers [1], name := some "-i", count := 1,
          type := hope_argtype.INTEGER },
        { value := hope_value.integers [2], name := some "-i", count := 1,
          type := hope_argtype.INTEGER }] ∧
     hope_get_integer H9 (some "-i") =
       { ret := 1, wrote := some (some [1]), err := none }) ∧
    (∀ (e : hope_result) (rs : List hope_result) (nm : Option String),
      hope_name_matches e.name nm = true → hope_search_result (e :: rs) nm = some e) := by
  constructor
  · exact ⟨by decide, by decide, by decide⟩
  · intro e rs nm he
    unfold hope_search_result
    exact List.find?_cons_of_pos _ he

/-- C9 amended witness: the first-match behaviour of `hope_search_result`
instantiated on the two `-i` entries the duplicate-occurrence parse produced. -/
theorem c9_witness :
    hope_search_result
      [{ value := hope_value.integers [1], name := some "-i", count := 1,
         type := hope_argtype.INTEGER },
       { value := hope_value.integers [2], name := some "-i", count := 1,
         type := hope_argtype.INTEGER }] (some "-i") =
      some { value := hope_value.integers [1], name := some "-i", count := 1,
             type := hope_argtype.INTEGER } :=
  c9_amended.2
    { value := hope_value.integers [1], name := some "-i", count := 1,
      type := hope_argtype.INTEGER }
    [{ value := hope_value.integers [2], name := some "-i", count := 1,
       type := hope_argtype.INTEGER }] (some "-i") (by decide)

/-- C10: after any successful parse of a clean set, a fallible getter of the
matching type called on a declared optional parameter that received no value
tokens does not error: it returns 0 (the stored count) and writes the NULL
array pointer through the destination. -/
theorem c10_absent_optional_fallible_getters (set : hope_set) (args : List String)
    (n : String) (p : hope_param)
    (hclean : set.results = none)
    (hmem : p ∈ set.params) (hname : p.name = some n)
    (huniq : ∀ q ∈ set.params, q.name = some n → q = p)
    (hopt : p.nargs = HOPE_ARGC_OPTMORE ∨ p.nargs = HOPE_ARGC_OPT ∨
      p.nargs = HOPE_ARGC_NONE)
    (habs : n ∉ args)
    (hsucc : (hope_parse_set set args).2 = HOPE_SUCCESS_CODE)
    (h : hope_t) (hres : h.results = (hope_parse_set set args).1.results) :
    (p.type = hope_argtype.INTEGER →
      hope_get_integer h (some n) = { ret := 0, wrote := some none, err := none }) ∧
    (p.type = hope_argtype.DOUBLE →
      hope_get_double h (some n) = { ret := 0, wrote := some none, err := none }) ∧
    (p.type = hope_argtype.STRING →
      hope_get_string h (some n) = { ret := 0, wrote := some none, err := none }) := by
  have hfind : hope_search_result (h.results.getD []) (some n) =
      some { value := hope_value.nullv, name := some n, count := 0, type := p.type } := by
    rw [hres]
    exact hope_absent_entry hclean hmem hname huniq hopt habs hsucc
  refine ⟨?_, ?_, ?_⟩ <;> intro ht <;>
    simp [hope_get_integer, hope_get_double, hope_get_string, hfind, ht,
      hope_value_integers, hope_value_doubles, hope_value_strings]

/-- C10 witness: the three getters observed through the committed parse `H7`
(set `S7`, empty token list). -/
theorem c10_witness :
    hope_get_integer H7 (some "-i") = { ret := 0, wrote := some none, err := none } ∧
    hope_get_double H7 (some "-d") = { ret := 0, wrote := some none, err := none } ∧
    hope_get_string H7 (some "-s") = { ret := 0, wrote := some none, err := none } := by
  refine ⟨?_, ?_, ?_⟩
  · exact (c10_absent_optional_fallible_getters S7 [] "-i"
      ⟨some "-i", none, .INTEGER, HOPE_ARGC_OPT⟩ rfl (by decide) rfl (by decide)
      (by decide) (by decide) (by decide) H7 rfl).1 rfl
  · exact (c10_absent_optional_fallible_getters S7 [] "-d"
      ⟨some "-d", none, .DOUBLE, HOPE_ARGC_OPT⟩ rfl (by decide) rfl (by decide)
      (by decide) (by decide) (by decide) H7 rfl).2.1 rfl
  · exact (c10_absent_optional_fallible_getters S7 [] "-s"
      ⟨some "-s", none, .STRING, HOPE_ARGC_OPT⟩ rfl (by decide) rfl (by decide)
      (by decide) (by decide) (by decide) H7 rfl).2.2 rfl

end Hope
